import Mathlib

/-!
Verification development for the luggage-recovery tag generator
(`3d-models/generate_tag.py`, `3d-models/reversible_tag.py`,
`3d-models/svg_to_3d.py`).

Lengths are millimetres, modelled as exact rationals (`ℚ`).  Python / numpy
rounding is round-half-to-even and is modelled by `pyRound`.  Python's
lexicographic comparison of lists (and of strings, via code points) is
modelled by `lexLe` / `lexLt`.
-/

namespace LuggageTag

/-! ### Lexicographic comparison, as Python compares lists and strings -/

/-- Python's `<=` on lists over an ordered element type: elementwise
lexicographic, a strict prefix is smaller. -/
def lexLe {α : Type} [LinearOrder α] : List α → List α → Bool
  | [], _ => true
  | _ :: _, [] => false
  | a :: as, b :: bs => if a < b then true else if b < a then false else lexLe as bs

/-- Python's `<` on lists: strict lexicographic order. -/
def lexLt {α : Type} [LinearOrder α] : List α → List α → Bool
  | [], [] => false
  | [], _ :: _ => true
  | _ :: _, [] => false
  | a :: as, b :: bs => if a < b then true else if b < a then false else lexLt as bs

theorem lexLe_refl {α : Type} [LinearOrder α] : ∀ a : List α, lexLe a a = true := by
  intro a
  induction a with
  | nil => rfl
  | cons x xs ih => simp [lexLe, ih]

theorem lexLe_total {α : Type} [LinearOrder α] :
    ∀ a b : List α, lexLe a b = true ∨ lexLe b a = true := by
  intro a
  induction a with
  | nil => intro b; left; rfl
  | cons x xs ih =>
      intro b
      cases b with
      | nil => right; rfl
      | cons y ys =>
          rcases lt_trichotomy x y with h | h | h
          · left; simp [lexLe, h]
          · subst h
            rcases ih ys with h2 | h2
            · left; simp [lexLe, h2]
            · right; simp [lexLe, h2]
          · right; simp [lexLe, h]

theorem lexLe_antisymm {α : Type} [LinearOrder α] :
    ∀ a b : List α, lexLe a b = true → lexLe b a = true → a = b := by
  intro a
  induction a with
  | nil =>
      intro b _ hba
      cases b with
      | nil => rfl
      | cons y ys => simp [lexLe] at hba
  | cons x xs ih =>
      intro b hab hba
      cases b with
      | nil => simp [lexLe] at hab
      | cons y ys =>
          rcases lt_trichotomy x y with h | h | h
          · simp [lexLe, h, asymm h] at hba
          · subst h
            simp only [lexLe, lt_irrefl, if_false] at hab hba
            rw [ih ys hab hba]
          · simp [lexLe, h, asymm h] at hab

theorem lexLe_trans {α : Type} [LinearOrder α] :
    ∀ a b c : List α, lexLe a b = true → lexLe b c = true → lexLe a c = true := by
  intro a
  induction a with
  | nil => intro b c _ _; rfl
  | cons x xs ih =>
      intro b c hab hbc
      cases b with
      | nil => simp [lexLe] at hab
      | cons y ys =>
          cases c with
          | nil => simp [lexLe] at hbc
          | cons z zs =>
              rcases lt_trichotomy x y with hxy | hxy | hxy
              · rcases lt_trichotomy y z with hyz | hyz | hyz
                · simp [lexLe, lt_trans hxy hyz]
                · subst hyz; simp [lexLe, hxy]
                · simp [lexLe, hyz, asymm hyz] at hbc
              · subst hxy
                rcases lt_trichotomy x z with hyz | hyz | hyz
                · simp [lexLe, hyz]
                · subst hyz
                  simp only [lexLe, lt_irrefl, if_false] at hab hbc ⊢
                  exact ih ys zs hab hbc
                · simp [lexLe, hyz, asymm hyz] at hbc
              · simp [lexLe, hxy, asymm hxy] at hab

/-- Python string comparison: lexicographic on Unicode code points. -/
def strLe (a b : String) : Bool := lexLe (a.data.map Char.toNat) (b.data.map Char.toNat)

theorem strLe_total (a b : String) : strLe a b = true ∨ strLe b a = true :=
  lexLe_total _ _

theorem strLe_trans (a b c : String) :
    strLe a b = true → strLe b c = true → strLe a c = true :=
  lexLe_trans _ _ _

/-! ### Python / numpy rounding: round-half-to-even -/

/-- Python's `round(q)` / numpy's `.round()` on an exact value: round half to
even, returning an integer. -/
def pyRound (q : ℚ) : ℤ :=
  let f : ℤ := ⌊q⌋
  if 2 * (q - f) < 1 then f
  else if 1 < 2 * (q - f) then f + 1
  else if f % 2 = 0 then f else f + 1

theorem pyRound_le_zero_of_lt_half {q : ℚ} (h : q < 1/2) : pyRound q ≤ 0 := by
  have hf : ⌊q⌋ ≤ 0 := by
    have : ⌊q⌋ < 1 := by
      rw [Int.floor_lt]
      calc q < 1/2 := h
        _ < 1 := by norm_num
    omega
  simp only [pyRound]
  split_ifs with h1 h2 h3
  · exact hf
  · have hfq : (⌊q⌋ : ℚ) ≤ q := Int.floor_le q
    have : (⌊q⌋ : ℚ) < 0 := by linarith
    have : ⌊q⌋ < 0 := by exact_mod_cast this
    omega
  · exact hf
  · have heq : 2 * (q - (⌊q⌋ : ℚ)) = 1 := le_antisymm (not_lt.mp h2) (not_lt.mp h1)
    have : (⌊q⌋ : ℚ) < 0 := by linarith
    have hneg : ⌊q⌋ < 0 := by exact_mod_cast this
    omega

/-! ### Parameter model (`generate_tag.Params`)

Field defaults are the dataclass defaults.  Python's truthiness of an
optional string (`if s:`) — `None` and `""` are falsy — is `optTruthy`. -/

structure Params where
  qr_w : ℚ := 50
  qr_h : ℚ := 30
  qr_border : ℚ := 3
  body_t : ℚ := 3
  min_wall : ℚ := 1.5
  corner_r : ℚ := 3
  nfc_d : ℚ := 25
  nfc_depth : ℚ := 1
  fit_clearance : ℚ := 0.25
  strap_hole_d : ℚ := 5
  strap_slot_w : ℚ := 0
  strap_slot_l : ℚ := 0
  qr_pocket_depth : ℚ := 0.2
  island_h : ℚ := 0.5
  front_prompt_text : String := "Scan me to find my owner"
  front_prompt_h : ℚ := 0.5
  front_prompt_margin : ℚ := 2
  front_text_style : String := "emboss"
  front_text_height : ℚ := 0.5
  front_text_depth : ℚ := 0.3
  front_prompt_edge : String := "bottom"
  back_name : Option String := none
  back_phone : Option String := none
  back_address : Option String := none
  back_text_h : ℚ := 4
  back_line_gap : ℚ := 1.5
  back_margin : ℚ := 3
  back_text_style : String := "engrave"
  deriving DecidableEq

def defaultParams : Params := {}

def optTruthy : Option String → Bool
  | none => false
  | some s => !(s = "")

/-- `generate_tag._validate_inputs`: the eager validation run at the top of
`build_and_export`, with the exact Python error strings. -/
def validateInputs (p : Params) : Except String Unit :=
  if p.qr_w ≤ 0 ∨ p.qr_h ≤ 0 then .error "qr_w and qr_h must be positive"
  else if p.qr_border < 1 then .error "qr_border must be >= 1.0 mm"
  else if p.body_t < 2.5 then .error "body_t must be >= 2.5 mm"
  else if p.min_wall < 1.5 then .error "min_wall must be >= 1.5 mm"
  else if p.nfc_depth + p.qr_pocket_depth > p.body_t - 0.6 then
    .error "Invalid pockets: nfc_depth + qr_pocket_depth must be <= body_t - 0.6"
  else .ok ()

/-! ### Build order of `build_and_export` (validation / geometry / text cuts)

`build_and_export` first calls `_validate_inputs`, then builds geometry
(`build_body`, `build_qr_islands`), then applies the text features to the
base.  The back-engrave wall check sits in the text-application phase; the
front engrave cut has no wall check at all.  `buildTrace` records the
completed steps; an error carries the steps completed before it. -/

inductive Step
  | bodyBuilt
  | islandsBuilt
  | frontEmbossUnion
  | frontEngraveCut
  | backEmbossUnion
  | backEngraveCut
  | exported
  deriving DecidableEq

/-- `front_text.val().isNull()` is false exactly when the prompt is nonempty. -/
def frontTextPresent (p : Params) : Bool := !(p.front_prompt_text = "")

/-- `_text_solids_back` returns a nonempty solid iff some back line is truthy. -/
def backTextPresent (p : Params) : Bool :=
  optTruthy p.back_name || optTruthy p.back_phone || optTruthy p.back_address

/-- Steps of `build_and_export` after validation succeeded, up to and
including the text-application phase and the export. -/
def composeSteps (p : Params) : Except (List Step × String) (List Step) :=
  let s0 : List Step := [Step.bodyBuilt, Step.islandsBuilt]
  let s1 := if p.front_text_style = "emboss" ∧ frontTextPresent p then
      s0 ++ [Step.frontEmbossUnion] else s0
  let s2 := if p.front_text_style = "engrave" ∧ frontTextPresent p then
      s1 ++ [Step.frontEngraveCut] else s1
  let s3 := if p.back_text_style = "emboss" ∧ backTextPresent p then
      s2 ++ [Step.backEmbossUnion] else s2
  if p.back_text_style = "engrave" ∧ backTextPresent p then
    if p.body_t - p.front_text_depth < p.min_wall then
      .error (s3, "Back engraving violates minimum wall thickness")
    else .ok (s3 ++ [Step.backEngraveCut, Step.exported])
  else .ok (s3 ++ [Step.exported])

/-- The steps completed before the back-engrave wall check. -/
def preBackSteps (p : Params) : List Step :=
  let s0 : List Step := [Step.bodyBuilt, Step.islandsBuilt]
  let s1 := if p.front_text_style = "emboss" ∧ frontTextPresent p then
      s0 ++ [Step.frontEmbossUnion] else s0
  let s2 := if p.front_text_style = "engrave" ∧ frontTextPresent p then
      s1 ++ [Step.frontEngraveCut] else s1
  if p.back_text_style = "emboss" ∧ backTextPresent p then
    s2 ++ [Step.backEmbossUnion] else s2

/-- The whole of `build_and_export`, viewed as the ordered trace of its
validation, geometry and text phases. -/
def buildTrace (p : Params) : Except (List Step × String) (List Step) :=
  match validateInputs p with
  | .error m => .error ([], m)
  | .ok _ => composeSteps p

theorem buildTrace_of_validate_error {p : Params} {m : String}
    (h : validateInputs p = .error m) : buildTrace p = .error ([], m) := by
  simp [buildTrace, h]

theorem buildTrace_of_validate_ok {p : Params}
    (h : validateInputs p = .ok ()) : buildTrace p = composeSteps p := by
  simp [buildTrace, h]

theorem composeSteps_backEngrave (p : Params)
    (hstyle : p.back_text_style = "engrave") (hpresent : backTextPresent p = true) :
    composeSteps p =
      (if p.body_t - p.front_text_depth < p.min_wall then
        .error (preBackSteps p, "Back engraving violates minimum wall thickness")
      else .ok (preBackSteps p ++ [Step.backEngraveCut, Step.exported])) := by
  simp [composeSteps, preBackSteps, hstyle, hpresent]

theorem composeSteps_noBackEngrave (p : Params)
    (h : ¬ (p.back_text_style = "engrave" ∧ backTextPresent p)) :
    composeSteps p = .ok (preBackSteps p ++ [Step.exported]) := by
  have hsplit : preBackSteps p =
      (if p.back_text_style = "emboss" ∧ backTextPresent p then
        ((if p.front_text_style = "engrave" ∧ frontTextPresent p then
            ((if p.front_text_style = "emboss" ∧ frontTextPresent p then
                [Step.bodyBuilt, Step.islandsBuilt] ++ [Step.frontEmbossUnion]
              else [Step.bodyBuilt, Step.islandsBuilt])) ++ [Step.frontEngraveCut]
          else (if p.front_text_style = "emboss" ∧ frontTextPresent p then
                [Step.bodyBuilt, Step.islandsBuilt] ++ [Step.frontEmbossUnion]
              else [Step.bodyBuilt, Step.islandsBuilt]))) ++ [Step.backEmbossUnion]
      else (if p.front_text_style = "engrave" ∧ frontTextPresent p then
            ((if p.front_text_style = "emboss" ∧ frontTextPresent p then
                [Step.bodyBuilt, Step.islandsBuilt] ++ [Step.frontEmbossUnion]
              else [Step.bodyBuilt, Step.islandsBuilt])) ++ [Step.frontEngraveCut]
          else (if p.front_text_style = "emboss" ∧ frontTextPresent p then
                [Step.bodyBuilt, Step.islandsBuilt] ++ [Step.frontEmbossUnion]
              else [Step.bodyBuilt, Step.islandsBuilt]))) := rfl
  simp only [composeSteps, if_neg h, ← hsplit]

theorem backEngraveCut_not_mem_preBackSteps (p : Params) :
    Step.backEngraveCut ∉ preBackSteps p := by
  simp only [preBackSteps]
  split <;> split <;> split <;> simp

theorem bodyBuilt_mem_preBackSteps (p : Params) :
    Step.bodyBuilt ∈ preBackSteps p := by
  simp only [preBackSteps]
  split <;> split <;> split <;> simp

/-! ### Rectangular prisms and the module-grid loops

All code-matrix synthesizers iterate `for r, row in matrix: for c, bit in
row:` and, for the kept polarity, emit one axis-aligned rectangular prism.
`gridLoop` is that double loop with explicit row/column counters; `cells`
is the same loop collecting the kept `(row, column)` indices. -/

structure Prism where
  cx : ℚ
  cy : ℚ
  w : ℚ
  h : ℚ
  z0 : ℚ
  z1 : ℚ
  deriving DecidableEq

/-- `.mirror(mirrorPlane='YZ')`: negate the x coordinate. -/
def mirrorYZ (pr : Prism) : Prism := ⟨-pr.cx, pr.cy, pr.w, pr.h, pr.z0, pr.z1⟩

def gridLoopRow (keep : Bool → Bool) (f : ℕ → ℕ → Prism) (r : ℕ) :
    ℕ → List Bool → List Prism
  | _, [] => []
  | c, b :: bs => (if keep b then [f r c] else []) ++ gridLoopRow keep f r (c + 1) bs

def gridLoopAux (keep : Bool → Bool) (f : ℕ → ℕ → Prism) :
    ℕ → List (List Bool) → List Prism
  | _, [] => []
  | r, row :: rest => gridLoopRow keep f r 0 row ++ gridLoopAux keep f (r + 1) rest

def gridLoop (keep : Bool → Bool) (f : ℕ → ℕ → Prism) (m : List (List Bool)) :
    List Prism :=
  gridLoopAux keep f 0 m

def cellsRow (keep : Bool → Bool) (r : ℕ) : ℕ → List Bool → List (ℕ × ℕ)
  | _, [] => []
  | c, b :: bs => (if keep b then [(r, c)] else []) ++ cellsRow keep r (c + 1) bs

def cellsAux (keep : Bool → Bool) : ℕ → List (List Bool) → List (ℕ × ℕ)
  | _, [] => []
  | r, row :: rest => cellsRow keep r 0 row ++ cellsAux keep (r + 1) rest

/-- The kept `(row, column)` pairs of a module matrix, in iteration order. -/
def cells (keep : Bool → Bool) (m : List (List Bool)) : List (ℕ × ℕ) :=
  cellsAux keep 0 m

theorem gridLoopRow_eq_map (keep : Bool → Bool) (f : ℕ → ℕ → Prism) (r : ℕ) :
    ∀ (c : ℕ) (row : List Bool),
      gridLoopRow keep f r c row = (cellsRow keep r c row).map (fun rc => f rc.1 rc.2) := by
  intro c row
  induction row generalizing c with
  | nil => rfl
  | cons b bs ih =>
      simp only [gridLoopRow, cellsRow, List.map_append, ih]
      congr 1
      split <;> simp

theorem gridLoopAux_eq_map (keep : Bool → Bool) (f : ℕ → ℕ → Prism) :
    ∀ (r : ℕ) (m : List (List Bool)),
      gridLoopAux keep f r m = (cellsAux keep r m).map (fun rc => f rc.1 rc.2) := by
  intro r m
  induction m generalizing r with
  | nil => rfl
  | cons row rest ih =>
      simp only [gridLoopAux, cellsAux, List.map_append, ih, gridLoopRow_eq_map]

theorem gridLoop_eq_map (keep : Bool → Bool) (f : ℕ → ℕ → Prism) (m : List (List Bool)) :
    gridLoop keep f m = (cells keep m).map (fun rc => f rc.1 rc.2) :=
  gridLoopAux_eq_map keep f 0 m

theorem cellsRow_length (keep : Bool → Bool) (r : ℕ) :
    ∀ (c : ℕ) (row : List Bool),
      (cellsRow keep r c row).length = (row.filter keep).length := by
  intro c row
  induction row generalizing c with
  | nil => rfl
  | cons b bs ih =>
      simp only [cellsRow, List.length_append, ih, List.filter]
      cases hb : keep b <;> simp [Nat.add_comm]

theorem cellsAux_length (keep : Bool → Bool) :
    ∀ (r : ℕ) (m : List (List Bool)),
      (cellsAux keep r m).length = ((m.flatMap (fun row => row)).filter keep).length := by
  intro r m
  induction m generalizing r with
  | nil => rfl
  | cons row rest ih =>
      simp only [cellsAux, List.length_append, ih, cellsRow_length, List.flatMap_cons,
        List.filter_append]

theorem cells_length (keep : Bool → Bool) (m : List (List Bool)) :
    (cells keep m).length = ((m.flatMap (fun row => row)).filter keep).length :=
  cellsAux_length keep 0 m

/-! ### `svg_to_3d.create_qr_features_from_svg`: the dual-stack mirrored mode

Each SVG rect of class `qr-module` (a feature-colour module) yields one
front prism extruding inward from the front face by
`half_depth = (thickness - web_thickness) / 2` and one back prism extruding
inward from the back face by the same half depth; the front stack is then
mirrored across the YZ plane.  `generate_3d_from_svg` unions the mirrored
front stack with the back stack afterwards. -/

structure SvgRect where
  x : ℚ
  y : ℚ
  w : ℚ
  h : ℚ
  cls : String
  deriving DecidableEq

/-- Top-left-origin, Y-down SVG coordinates to center-origin, Y-up. -/
def svgCenterX (W : ℚ) (r : SvgRect) : ℚ := r.x + r.w / 2 - W / 2

def svgCenterY (H : ℚ) (r : SvgRect) : ℚ := H / 2 - (r.y + r.h / 2)

def svgFrontPrism (W H hd : ℚ) (r : SvgRect) : Prism :=
  ⟨svgCenterX W r, svgCenterY H r, r.w, r.h, 0, hd⟩

def svgBackPrism (W H t hd : ℚ) (r : SvgRect) : Prism :=
  ⟨svgCenterX W r, svgCenterY H r, r.w, r.h, t - hd, t⟩

def createQrFeaturesFromSvg (W H t web : ℚ) (elems : List SvgRect) :
    List Prism × List Prism :=
  let hd := (t - web) / 2
  let mods := elems.filter (fun r => r.cls = "qr-module")
  let fronts := mods.map (svgFrontPrism W H hd)
  let backs := mods.map (svgBackPrism W H t hd)
  (fronts.map mirrorYZ, backs)

/-! ### `reversible_tag.create_truly_reversible_tag`: parametric dual stack

Light modules become features.  `half_depth = max(0.1, (thickness -
web_thickness) / 2)`.  With the default stacking configuration the front
(bottom) stack is mirrored across the YZ plane before the union with the
back stack. -/

def reversibleHalfDepth (t web : ℚ) : ℚ := max (1/10) ((t - web) / 2)

def reversibleFrontPrism (qx qy qs ms hd : ℚ) (r c : ℕ) : Prism :=
  ⟨qx - qs / 2 + (c + 1/2) * ms, qy + qs / 2 - (r + 1/2) * ms, ms, ms, 0, hd⟩

def reversibleBackPrism (qx qy qs ms t hd : ℚ) (r c : ℕ) : Prism :=
  ⟨qx - qs / 2 + (c + 1/2) * ms, qy + qs / 2 - (r + 1/2) * ms, ms, ms, t - hd, t⟩

def reversibleQrStacks (qx qy qs ms t web : ℚ) (m : List (List Bool)) :
    List Prism × List Prism :=
  let hd := reversibleHalfDepth t web
  let fronts := gridLoop (fun b => !b) (reversibleFrontPrism qx qy qs ms hd) m
  let backs := gridLoop (fun b => !b) (reversibleBackPrism qx qy qs ms t hd) m
  (fronts.map mirrorYZ, backs)

/-! ### `generate_tag.build_qr_islands`: the single-sided islands mode

The matrix `m` is the encoder output iterated with the quiet-zone border
included (`matrix_iter(scale=1, border=4)`).  One prism per dark module,
`module_size` square, `island_h` tall, sitting on the body top face. -/

def moduleSize (p : Params) (modules : ℕ) : ℚ :=
  min ((p.qr_w + p.fit_clearance) / modules) ((p.qr_h + p.fit_clearance) / modules)

def islandPrism (p : Params) (ms x0 y0 : ℚ) (r c : ℕ) : Prism :=
  ⟨x0 + (c + 1/2) * ms, y0 + (r + 1/2) * ms, ms, ms, p.body_t / 2, p.body_t / 2 + p.island_h⟩

def qrIslandPrisms (p : Params) (m : List (List Bool)) : List Prism :=
  let modules : ℕ := m.length
  let ms := moduleSize p modules
  let total := (modules : ℚ) * ms
  gridLoop (fun b => b) (islandPrism p ms (-total / 2) (-total / 2)) m

/-- The `dark_count` accumulator of `build_qr_islands`, recorded in the
manifest as `dark_modules`. -/
def buildDarkCount (m : List (List Bool)) : ℕ :=
  m.foldl (fun acc row => row.foldl (fun a b => if b then a + 1 else a) acc) 0

/-- The independent count of `tests/test_qr._dark_count`:
`sum(1 for row in qr.matrix_iter(scale=1, border=4) for bit in row if bit)`. -/
def encoderDarkCount (m : List (List Bool)) : ℕ :=
  ((m.flatMap (fun row => row)).filter (fun b => b)).length

theorem foldl_count_row (row : List Bool) :
    ∀ acc : ℕ, row.foldl (fun a b => if b then a + 1 else a) acc
      = acc + (row.filter (fun b => b)).length := by
  induction row with
  | nil => intro acc; simp
  | cons b bs ih =>
      intro acc
      cases b <;> simp [List.foldl, ih, List.filter]
      omega

theorem buildDarkCount_eq (m : List (List Bool)) :
    buildDarkCount m = encoderDarkCount m := by
  suffices h : ∀ acc : ℕ,
      m.foldl (fun acc row => row.foldl (fun a b => if b then a + 1 else a) acc) acc
        = acc + encoderDarkCount m by
    simpa using h 0
  induction m with
  | nil => intro acc; simp [encoderDarkCount]
  | cons row rest ih =>
      intro acc
      rw [List.foldl_cons, ih, foldl_count_row]
      simp only [encoderDarkCount, List.flatMap_cons, List.filter_append, List.length_append]
      omega

theorem qrIslandPrisms_length (p : Params) (m : List (List Bool)) :
    (qrIslandPrisms p m).length = encoderDarkCount m := by
  simp only [qrIslandPrisms, gridLoop_eq_map, List.length_map, cells_length]
  rfl

/-! ### `generate_tag._triangulate_and_write`: deterministic serialization

With `deterministic=True` the face list is re-ordered before writing: each
face gets a sort key — its three vertices quantized to 1e-6 mm
(`(pts * 1e6).round().astype(int)`, numpy round-half-even) and sorted
within the face (`q.sort()`, lexicographic) — and the faces are sorted by
key with Python's stable `sorted`.  The binary STL bytes are then a fixed
header followed by one record per face in that order, each record holding
the face's (un-quantized) vertex coordinates; `triBytes` stands for that
record.  The three sub-keys all have length 3, so comparing the
concatenated 9-element keys is the same as comparing the nested lists. -/

structure Vec3 where
  x : ℚ
  y : ℚ
  z : ℚ
  deriving DecidableEq

structure Tri where
  a : Vec3
  b : Vec3
  c : Vec3
  deriving DecidableEq

def vKey (v : Vec3) : List ℤ :=
  [pyRound (v.x * 1000000), pyRound (v.y * 1000000), pyRound (v.z * 1000000)]

def triKey (t : Tri) : List ℤ :=
  (List.insertionSort (fun u v => lexLe u v = true) [vKey t.a, vKey t.b, vKey t.c]).flatMap
    (fun l => l)

def faceOrder : Tri → Tri → Prop := fun s t => lexLe (triKey s) (triKey t) = true

instance : DecidableRel faceOrder := fun _ _ => instDecidableEqBool _ _

instance : IsTotal Tri faceOrder := ⟨fun _ _ => lexLe_total _ _⟩

instance : IsTrans Tri faceOrder := ⟨fun _ _ _ => lexLe_trans _ _ _⟩

/-- The canonical face order: Python's stable `sorted(..., key=face_key)`. -/
def sortFaces (faces : List Tri) : List Tri := List.insertionSort faceOrder faces

def triBytes (t : Tri) : List ℚ :=
  [t.a.x, t.a.y, t.a.z, t.b.x, t.b.y, t.b.z, t.c.x, t.c.y, t.c.z]

/-- The face records written by `_triangulate_and_write` with
`deterministic=True`, in file order. -/
def writeDeterministic (faces : List Tri) : List ℚ :=
  (sortFaces faces).flatMap triBytes

/-- Strict key order on faces. -/
def faceOrderStrict : Tri → Tri → Prop :=
  fun s t => faceOrder s t ∧ triKey s ≠ triKey t

instance : IsAntisymm Tri faceOrderStrict :=
  ⟨fun _ _ h1 h2 => absurd (lexLe_antisymm _ _ h1.1 h2.1) h1.2⟩

theorem sorted_strict_of_nodup_keys {l : List Tri}
    (hs : List.Sorted faceOrder l) (hnd : (l.map triKey).Nodup) :
    List.Sorted faceOrderStrict l := by
  have hne : l.Pairwise (fun s t => triKey s ≠ triKey t) := by
    rw [List.Nodup, List.pairwise_map] at hnd
    exact hnd
  exact (hs.and hne).imp (fun h => ⟨h.1, h.2⟩)

/-- Stable sorting by face key depends only on the multiset of faces when no
two faces share a key: the serialized bytes are permutation-invariant. -/
theorem writeDeterministic_perm {l1 l2 : List Tri} (hperm : l1.Perm l2)
    (hnd : (l1.map triKey).Nodup) : writeDeterministic l1 = writeDeterministic l2 := by
  have hs1 : List.Sorted faceOrder (sortFaces l1) := List.sorted_insertionSort _ l1
  have hs2 : List.Sorted faceOrder (sortFaces l2) := List.sorted_insertionSort _ l2
  have hp1 : (sortFaces l1).Perm l1 := List.perm_insertionSort _ l1
  have hp2 : (sortFaces l2).Perm l2 := List.perm_insertionSort _ l2
  have hnd1 : ((sortFaces l1).map triKey).Nodup := ((hp1.map triKey).symm.nodup hnd)
  have hnd2 : ((sortFaces l2).map triKey).Nodup := by
    refine ((hp2.map triKey).symm.nodup ?_)
    exact ((hperm.map triKey).nodup hnd)
  have hperm12 : (sortFaces l1).Perm (sortFaces l2) :=
    (hp1.trans hperm).trans hp2.symm
  have heq : sortFaces l1 = sortFaces l2 :=
    List.eq_of_perm_of_sorted hperm12
      (sorted_strict_of_nodup_keys hs1 hnd1)
      (sorted_strict_of_nodup_keys hs2 hnd2)
  unfold writeDeterministic
  rw [heq]

/-! ### Exact Z bounds of the islands-variant exports (`build_and_export`)

The islands variant exports `base_with_text` and the feature solid.  The
bare body is extruded `body_t/2` both ways about z = 0; `_text_solid_front`
places the prompt on a workplane at offset `body_t/2` extruding upward, so
a front emboss raises the exported base's top; back text stays inside the
slab and cuts only remove material.  Both `build_islands` and
`build_qr_islands` extrude `island_h` from z = 0 and translate up by
`body_t/2`. -/

def bodyWidth (p : Params) : ℚ := p.qr_w + 2 * p.qr_border

def bodyHeight (p : Params) : ℚ := p.qr_h + 2 * p.qr_border

def bodyZMax (p : Params) : ℚ := p.body_t / 2

/-- Top Z of the exported `base_with_text` solid. -/
def baseWithTextZMax (p : Params) : ℚ :=
  if p.front_text_style = "emboss" ∧ frontTextPresent p then
    p.body_t / 2 + p.front_text_height
  else p.body_t / 2

/-- Bottom Z of the feature solid of the islands variant. -/
def islandsZMin (p : Params) : ℚ := p.body_t / 2

/-- The Z-contact assertion of `_two_tone_asserts` on the exported base
mesh: `abs(b.bounds[1][2] - p.body_t / 2) < 1e-3`. -/
def twoToneZAssert (p : Params) : Prop :=
  |baseWithTextZMax p - p.body_t / 2| < 1/1000

/-! ### The checksum list (`checksums.sha256`)

`build_and_export` first writes one `f"{sha256}  {name}"` line per entry of
`manifest["files"]`, iterating `sorted(manifest["files"].items())`; the
sticker-template block afterwards re-opens the file in append mode and adds
the sticker SVG (and optional PNG) lines at the end. -/

structure ChecksumLine where
  sha : String
  name : String
  deriving DecidableEq

def checksumOrder : ChecksumLine → ChecksumLine → Prop :=
  fun a b => strLe a.name b.name = true

instance : DecidableRel checksumOrder := fun _ _ => instDecidableEqBool _ _

instance : IsTotal ChecksumLine checksumOrder := ⟨fun _ _ => strLe_total _ _⟩

instance : IsTrans ChecksumLine checksumOrder := ⟨fun _ _ _ => strLe_trans _ _ _⟩

/-- `sorted(manifest["files"].items())`: manifest file names are unique dict
keys, so sorting the items is sorting by file name. -/
def sortByName (lines : List ChecksumLine) : List ChecksumLine :=
  List.insertionSort checksumOrder lines

/-- The final line sequence of `checksums.sha256`: the sorted main block,
then the appended sticker lines. -/
def checksumFile (mainLines stickerLines : List ChecksumLine) : List ChecksumLine :=
  sortByName mainLines ++ stickerLines

/-- `generate_tag.color_switch_layer_index`:
`layer = max(1, round(island_h / layer_height))`. -/
def colorSwitchLayerIndex (island_h layer_height : ℚ) : ℤ :=
  max 1 (pyRound (island_h / layer_height))

/-! ### Concrete inputs used by witnesses and counterexamples -/

/-- Defaults except: front prompt styled `engrave` with depth 2 mm, so the
§3 engrave-depth invariant `depth ≤ thickness − min_wall` fails
(2 > 3 − 1.5). -/
def frontEngraveDeepParams : Params :=
  { front_text_style := "engrave", front_text_depth := 2 }

/-- Defaults except: front prompt styled `engrave` with depth 2.25 mm,
violating `thickness − depth ≥ min_wall` (3 − 2.25 = 0.75 < 1.5). -/
def frontEngraveDeeperParams : Params :=
  { front_text_style := "engrave", front_text_depth := 9/4 }

/-- Defaults except: a back name line is present (back style defaults to
`engrave`) and the engrave cut depth is 2 mm, violating
`body_t − depth ≥ min_wall` (3 − 2 = 1 < 1.5). -/
def backEngraveDeepParams : Params :=
  { back_name := some "ORI ASHKENAZI", front_text_depth := 2 }

/-- Defaults except: `qr_border` is 0.5 mm, violating `border ≥ 1.0`. -/
def borderViolParams : Params := { qr_border := 1/2 }

/-- A triangle of the canonical-serializer model. -/
def faceP : Tri := ⟨⟨0, 0, 0⟩, ⟨1, 0, 0⟩, ⟨0, 1, 0⟩⟩

/-- The same triangle as `faceP` with its vertex cycle rotated: a distinct
record with the same sort key. -/
def faceQ : Tri := ⟨⟨1, 0, 0⟩, ⟨0, 1, 0⟩, ⟨0, 0, 0⟩⟩

/-- A triangle whose sort key differs from `faceP`'s. -/
def faceR : Tri := ⟨⟨5, 0, 0⟩, ⟨6, 0, 0⟩, ⟨5, 1, 0⟩⟩

/-- The checksum lines of an `--variant islands` run with previews off and a
successful sticker export (no PNG): the two STL lines are written sorted,
then the sticker line is appended. -/
def islandsChecksumLines : List ChecksumLine :=
  checksumFile
    [⟨"sha-base", "tag_alt_qr_islands_base.stl"⟩,
     ⟨"sha-features", "tag_alt_qr_islands_features.stl"⟩]
    [⟨"sha-sticker", "qr_sticker_30x50.svg"⟩]

/-! ## Claims -/

/-- C10: `color_switch_layer_index` returns
`max(1, round(island_h / layer_height))`; the recorded color-switch layer
is at least 1, never 0, and equals 1 whenever the raised-feature height is
below half a layer height. -/
theorem color_switch_layer_spec (ih lh : ℚ) (hl : 0 < lh) :
    colorSwitchLayerIndex ih lh = max 1 (pyRound (ih / lh)) ∧
    1 ≤ colorSwitchLayerIndex ih lh ∧
    (ih < lh / 2 → colorSwitchLayerIndex ih lh = 1) := by
  refine ⟨rfl, le_max_left _ _, ?_⟩
  intro hsmall
  have hx : ih / lh < 1 / 2 := by
    rw [div_lt_div_iff₀ hl (by norm_num : (0:ℚ) < 2)]
    linarith
  have hle := pyRound_le_zero_of_lt_half hx
  unfold colorSwitchLayerIndex
  omega

theorem color_switch_layer_spec_witness :
    (0 : ℚ) < 1/5 ∧
    (colorSwitchLayerIndex (1/10) (1/5) = max 1 (pyRound ((1/10) / (1/5))) ∧
     1 ≤ colorSwitchLayerIndex (1/10) (1/5) ∧
     ((1/10 : ℚ) < (1/5) / 2 → colorSwitchLayerIndex (1/10) (1/5) = 1)) :=
  ⟨by norm_num, color_switch_layer_spec (1/10) (1/5) (by norm_num)⟩

/-- C4: the number of dark-module prisms emitted by `build_qr_islands`
equals the `dark_count` accumulator recorded in the manifest as
`dark_modules`, which in turn equals the count computed independently by
iterating the same bordered code matrix (`tests/test_qr._dark_count`).
Both builder and test iterate `matrix_iter(scale=1, border=4)` on the same
payload with error level `m`, so both see the same matrix `m` here; the
equality therefore holds in particular for payload `"HELLO-WORLD-1234"`
with quiet zone 4. -/
theorem qr_dark_count_fidelity (p : Params) (m : List (List Bool)) :
    (qrIslandPrisms p m).length = buildDarkCount m ∧
    buildDarkCount m = encoderDarkCount m := by
  refine ⟨?_, buildDarkCount_eq m⟩
  rw [qrIslandPrisms_length, buildDarkCount_eq]

/-- C7 (amended): in single-sided-islands mode each dark module of the
bordered Code Matrix yields exactly one rectangular prism, of footprint
`module_size × module_size` and height `island_h`, sitting on the body top
face, centred at `(x0 + (col + 0.5)·ms, y0 + (row + 0.5)·ms)` with
`x0 = y0 = −(modules·ms)/2`: the y coordinate *grows* with the row index,
so row 0 lies at the bottom of the code region (the rendered pattern is
vertically flipped relative to the matrix), not at the top as claimed. -/
theorem qr_islands_prism_layout (p : Params) (m : List (List Bool)) :
    qrIslandPrisms p m
      = (cells (fun b => b) m).map (fun rc =>
          islandPrism p (moduleSize p m.length)
            (-((m.length : ℚ) * moduleSize p m.length) / 2)
            (-((m.length : ℚ) * moduleSize p m.length) / 2) rc.1 rc.2) ∧
    (∀ pr ∈ qrIslandPrisms p m,
      pr.w = moduleSize p m.length ∧ pr.h = moduleSize p m.length ∧
      pr.z0 = p.body_t / 2 ∧ pr.z1 = p.body_t / 2 + p.island_h) := by
  have h1 : qrIslandPrisms p m
      = (cells (fun b => b) m).map (fun rc =>
          islandPrism p (moduleSize p m.length)
            (-((m.length : ℚ) * moduleSize p m.length) / 2)
            (-((m.length : ℚ) * moduleSize p m.length) / 2) rc.1 rc.2) := by
    unfold qrIslandPrisms
    exact gridLoop_eq_map _ _ m
  refine ⟨h1, ?_⟩
  intro pr hpr
  rw [h1] at hpr
  obtain ⟨rc, _, rfl⟩ := List.mem_map.mp hpr
  exact ⟨rfl, rfl, rfl, rfl⟩

theorem qr_islands_prism_layout_witness :
    (islandPrism defaultParams (moduleSize defaultParams 1)
        (-((1 : ℚ) * moduleSize defaultParams 1) / 2)
        (-((1 : ℚ) * moduleSize defaultParams 1) / 2) 0 0).z1
      = defaultParams.body_t / 2 + defaultParams.island_h := by
  have hmem : islandPrism defaultParams (moduleSize defaultParams 1)
      (-((1 : ℚ) * moduleSize defaultParams 1) / 2)
      (-((1 : ℚ) * moduleSize defaultParams 1) / 2) 0 0
        ∈ qrIslandPrisms defaultParams [[true]] := by
    rw [(qr_islands_prism_layout defaultParams [[true]]).1]
    exact List.mem_map.mpr ⟨(0, 0), by decide, rfl⟩
  exact ((qr_islands_prism_layout defaultParams [[true]]).2 _ hmem).2.2.2

/-- C7 counterexample: at the default Parameter Set and the all-dark
2×2 matrix, the two prisms generated from matrix row 0 (the first two in
iteration order) are centred at y = −121/16 and the two from row 1 at
y = 121/16, so row 0 sits strictly *below* row 1 — the module rows are not
Y-inverted and row 0 lies at the bottom of the code region. -/
theorem qr_islands_row0_at_bottom :
    (qrIslandPrisms defaultParams [[true, true], [true, true]]).map Prism.cy
      = [-(121/16), -(121/16), 121/16, 121/16] ∧
    (-(121/16) : ℚ) < 121/16 := by
  constructor
  · have hms : moduleSize defaultParams 2 = 121/8 := by
      unfold moduleSize defaultParams
      rw [min_def]
      norm_num
    simp only [qrIslandPrisms, List.length_cons, List.length_nil, Nat.zero_add, hms,
      gridLoop, gridLoopAux, gridLoopRow, if_pos, islandPrism, List.map_append,
      List.map_cons, List.map_nil]
    norm_num
  · norm_num

/-- C5 (evaluation at the failing input): with the default Parameter
Set the islands variant exports `base_with_text`, whose top Z is
`body_t/2 + front_text_height = 2` (the embossed front prompt sits on the
top face), while the feature solid's bottom Z is `body_t/2 = 1.5`; the
code's own `_two_tone_asserts` Z-contact assertion is false, so the
claimed flush two-piece registration fails on the code as written. -/
theorem islands_two_piece_z_bug :
    baseWithTextZMax defaultParams = 2 ∧
    islandsZMin defaultParams = 3/2 ∧
    bodyZMax defaultParams = 3/2 ∧
    ¬ twoToneZAssert defaultParams := by
  have hft : frontTextPresent defaultParams = true := by decide
  have hstyle : defaultParams.front_text_style = "emboss" := rfl
  have hcond : defaultParams.front_text_style = "emboss" ∧ frontTextPresent defaultParams := by
    exact ⟨hstyle, hft⟩
  have hz : baseWithTextZMax defaultParams = 2 := by
    unfold baseWithTextZMax
    rw [if_pos hcond]
    norm_num [defaultParams]
  refine ⟨hz, by norm_num [islandsZMin, defaultParams],
    by norm_num [bodyZMax, defaultParams], ?_⟩
  unfold twoToneZAssert
  rw [hz]
  norm_num [defaultParams]
  rw [abs_of_pos (by norm_num : (0:ℚ) < 1/2)]
  norm_num

/-- C9 (amended): the checksum list as first written holds one
`hash  filename` line per manifest output file, sorted by filename
(Python's `sorted` over the manifest items); the sticker-template lines
are appended afterwards at the end of the file, after the sorted block. -/
theorem checksum_lines_order (mainLines stickerLines : List ChecksumLine) :
    checksumFile mainLines stickerLines = sortByName mainLines ++ stickerLines ∧
    List.Sorted checksumOrder (sortByName mainLines) ∧
    (sortByName mainLines).Perm mainLines :=
  ⟨rfl, List.sorted_insertionSort _ _, List.perm_insertionSort _ _⟩

/-- C9 counterexample: for an islands-variant run the final
`checksums.sha256` line order is base STL, features STL, then the appended
sticker SVG line — `"qr_sticker_30x50.svg"` sorts before the `"tag_…"`
names, so the whole file is *not* deterministically ordered by filename. -/
theorem checksum_file_not_sorted :
    islandsChecksumLines.map ChecksumLine.name
      = ["tag_alt_qr_islands_base.stl", "tag_alt_qr_islands_features.stl",
         "qr_sticker_30x50.svg"] ∧
    ¬ List.Sorted checksumOrder islandsChecksumLines := by
  constructor
  · decide
  · decide

/-- C3 (amended): `build_and_export` validates four of the §3
invariants eagerly — pocket sum, border, thickness, minimum wall — via
`_validate_inputs`: any violation raises a `ValueError` naming the
violated constraint before any geometry step, and the offending parameter
is never modified (the validator is a pure check).  The fifth §3
invariant, engrave depth ≤ thickness − min_wall, is *not* eager: it is
enforced only for back-engrave text with a nonempty line, after the body
and feature geometry have been built. -/
theorem eager_validation_spec (p : Params) :
    ((p.qr_w ≤ 0 ∨ p.qr_h ≤ 0) →
        buildTrace p = .error ([], "qr_w and qr_h must be positive")) ∧
    (¬(p.qr_w ≤ 0 ∨ p.qr_h ≤ 0) → p.qr_border < 1 →
        buildTrace p = .error ([], "qr_border must be >= 1.0 mm")) ∧
    (¬(p.qr_w ≤ 0 ∨ p.qr_h ≤ 0) → ¬p.qr_border < 1 → p.body_t < 2.5 →
        buildTrace p = .error ([], "body_t must be >= 2.5 mm")) ∧
    (¬(p.qr_w ≤ 0 ∨ p.qr_h ≤ 0) → ¬p.qr_border < 1 → ¬p.body_t < 2.5 →
        p.min_wall < 1.5 →
        buildTrace p = .error ([], "min_wall must be >= 1.5 mm")) ∧
    (¬(p.qr_w ≤ 0 ∨ p.qr_h ≤ 0) → ¬p.qr_border < 1 → ¬p.body_t < 2.5 →
        ¬p.min_wall < 1.5 → p.nfc_depth + p.qr_pocket_depth > p.body_t - 0.6 →
        buildTrace p = .error
          ([], "Invalid pockets: nfc_depth + qr_pocket_depth must be <= body_t - 0.6")) ∧
    (validateInputs p = .ok () → p.back_text_style = "engrave" →
        backTextPresent p = true → p.body_t - p.front_text_depth < p.min_wall →
        buildTrace p
            = .error (preBackSteps p, "Back engraving violates minimum wall thickness") ∧
        Step.bodyBuilt ∈ preBackSteps p) := by
  refine ⟨?_, ?_, ?_, ?_, ?_, ?_⟩
  · intro h1
    exact buildTrace_of_validate_error (by unfold validateInputs; rw [if_pos h1])
  · intro h1 h2
    exact buildTrace_of_validate_error
      (by unfold validateInputs; rw [if_neg h1, if_pos h2])
  · intro h1 h2 h3
    exact buildTrace_of_validate_error
      (by unfold validateInputs; rw [if_neg h1, if_neg h2, if_pos h3])
  · intro h1 h2 h3 h4
    exact buildTrace_of_validate_error
      (by unfold validateInputs; rw [if_neg h1, if_neg h2, if_neg h3, if_pos h4])
  · intro h1 h2 h3 h4 h5
    exact buildTrace_of_validate_error
      (by unfold validateInputs; rw [if_neg h1, if_neg h2, if_neg h3, if_neg h4, if_pos h5])
  · intro hok hstyle hpresent hviol
    rw [buildTrace_of_validate_ok hok, composeSteps_backEngrave p hstyle hpresent,
      if_pos hviol]
    exact ⟨rfl, bodyBuilt_mem_preBackSteps p⟩

theorem eager_validation_spec_witness :
    ¬(borderViolParams.qr_w ≤ 0 ∨ borderViolParams.qr_h ≤ 0) ∧
    borderViolParams.qr_border < 1 ∧
    buildTrace borderViolParams = .error ([], "qr_border must be >= 1.0 mm") := by
  have h1 : ¬(borderViolParams.qr_w ≤ 0 ∨ borderViolParams.qr_h ≤ 0) := by
    norm_num [borderViolParams]
  have h2 : borderViolParams.qr_border < 1 := by norm_num [borderViolParams]
  exact ⟨h1, h2, (eager_validation_spec borderViolParams).2.1 h1 h2⟩

/-- C3 counterexample: `frontEngraveDeepParams` violates the §3
engrave-depth invariant (front engrave depth 2 > body_t − min_wall = 1.5),
yet the build raises no validation error at all: it runs to completion,
body and islands built and the front engrave cut applied. -/
theorem eager_validation_counterexample :
    frontEngraveDeepParams.body_t - frontEngraveDeepParams.min_wall
        < frontEngraveDeepParams.front_text_depth ∧
    buildTrace frontEngraveDeepParams
        = .ok [Step.bodyBuilt, Step.islandsBuilt, Step.frontEngraveCut, Step.exported] := by
  constructor
  · norm_num [frontEngraveDeepParams]
  · have hok : validateInputs frontEngraveDeepParams = .ok () := by
      unfold validateInputs frontEngraveDeepParams
      norm_num
    rw [buildTrace_of_validate_ok hok]
    have hnb : ¬(frontEngraveDeepParams.back_text_style = "engrave" ∧
        backTextPresent frontEngraveDeepParams = true) := by
      intro hc
      simp [backTextPresent, frontEngraveDeepParams, optTruthy] at hc
    rw [composeSteps_noBackEngrave _ hnb]
    have hsteps : preBackSteps frontEngraveDeepParams
        = [Step.bodyBuilt, Step.islandsBuilt, Step.frontEngraveCut] := by
      have hfe : ¬(frontEngraveDeepParams.front_text_style = "emboss" ∧
          frontTextPresent frontEngraveDeepParams = true) := by
        intro hc
        exact absurd hc.1 (by decide)
      have hfg : frontEngraveDeepParams.front_text_style = "engrave" ∧
          frontTextPresent frontEngraveDeepParams = true := ⟨rfl, by decide⟩
      have hbe : ¬(frontEngraveDeepParams.back_text_style = "emboss" ∧
          backTextPresent frontEngraveDeepParams = true) := by
        intro hc
        exact absurd hc.1 (by decide)
      unfold preBackSteps
      rw [if_neg hbe, if_pos hfg, if_neg hfe]
      rfl
    rw [hsteps]
    rfl

/-- C6 (amended): only the *back*-engrave text path revalidates the
minimum-wall invariant: with back text present and styled `engrave`,
`build_and_export` checks `body_t − front_text_depth ≥ min_wall` (the
back-engrave cut depth is `front_text_depth`) and raises
"Back engraving violates minimum wall thickness" before the cut — the cut
step never occurs on the error path — and performs the cut exactly when
the invariant holds.  The front-engrave path has no such check (see the
counterexample). -/
theorem engrave_wall_revalidation (p : Params)
    (hok : validateInputs p = .ok ())
    (hstyle : p.back_text_style = "engrave")
    (hpresent : backTextPresent p = true) :
    (p.body_t - p.front_text_depth < p.min_wall →
      buildTrace p
          = .error (preBackSteps p, "Back engraving violates minimum wall thickness") ∧
      Step.backEngraveCut ∉ preBackSteps p) ∧
    (¬p.body_t - p.front_text_depth < p.min_wall →
      buildTrace p = .ok (preBackSteps p ++ [Step.backEngraveCut, Step.exported])) := by
  rw [buildTrace_of_validate_ok hok, composeSteps_backEngrave p hstyle hpresent]
  constructor
  · intro hviol
    rw [if_pos hviol]
    exact ⟨rfl, backEngraveCut_not_mem_preBackSteps p⟩
  · intro hfine
    rw [if_neg hfine]

theorem engrave_wall_revalidation_witness :
    validateInputs backEngraveDeepParams = .ok () ∧
    backEngraveDeepParams.back_text_style = "engrave" ∧
    backTextPresent backEngraveDeepParams = true ∧
    backEngraveDeepParams.body_t - backEngraveDeepParams.front_text_depth
        < backEngraveDeepParams.min_wall ∧
    buildTrace backEngraveDeepParams
        = .error (preBackSteps backEngraveDeepParams,
            "Back engraving violates minimum wall thickness") ∧
    Step.backEngraveCut ∉ preBackSteps backEngraveDeepParams := by
  have hok : validateInputs backEngraveDeepParams = .ok () := by
    unfold validateInputs backEngraveDeepParams
    norm_num
  have hviol : backEngraveDeepParams.body_t - backEngraveDeepParams.front_text_depth
      < backEngraveDeepParams.min_wall := by norm_num [backEngraveDeepParams]
  have h := (engrave_wall_revalidation backEngraveDeepParams hok rfl (by decide)).1 hviol
  exact ⟨hok, rfl, by decide, hviol, h.1, h.2⟩

/-- C6 counterexample: a *front* prompt styled `engrave` with depth
2.25 mm violates `body_t − depth ≥ min_wall` (3 − 2.25 = 0.75 < 1.5), yet
the build performs the front engrave cut with no wall check and no error:
the claim's "every text feature styled as engrave (front or back)" fails
for the front side. -/
theorem engrave_wall_front_unchecked :
    frontEngraveDeeperParams.body_t - frontEngraveDeeperParams.front_text_depth
        < frontEngraveDeeperParams.min_wall ∧
    buildTrace frontEngraveDeeperParams
        = .ok [Step.bodyBuilt, Step.islandsBuilt, Step.frontEngraveCut, Step.exported] := by
  constructor
  · norm_num [frontEngraveDeeperParams]
  · have hok : validateInputs frontEngraveDeeperParams = .ok () := by
      unfold validateInputs frontEngraveDeeperParams
      norm_num
    rw [buildTrace_of_validate_ok hok]
    have hnb : ¬(frontEngraveDeeperParams.back_text_style = "engrave" ∧
        backTextPresent frontEngraveDeeperParams = true) := by
      intro hc
      simp [backTextPresent, frontEngraveDeeperParams, optTruthy] at hc
    rw [composeSteps_noBackEngrave _ hnb]
    have hfe : ¬(frontEngraveDeeperParams.front_text_style = "emboss" ∧
        frontTextPresent frontEngraveDeeperParams = true) := by
      intro hc
      exact absurd hc.1 (by decide)
    have hfg : frontEngraveDeeperParams.front_text_style = "engrave" ∧
        frontTextPresent frontEngraveDeeperParams = true := ⟨rfl, by decide⟩
    have hbe : ¬(frontEngraveDeeperParams.back_text_style = "emboss" ∧
        backTextPresent frontEngraveDeeperParams = true) := by
      intro hc
      exact absurd hc.1 (by decide)
    have hsteps : preBackSteps frontEngraveDeeperParams
        = [Step.bodyBuilt, Step.islandsBuilt, Step.frontEngraveCut] := by
      unfold preBackSteps
      rw [if_neg hbe, if_pos hfg, if_neg hfe]
      rfl
    rw [hsteps]
    rfl

/-- C1: in dual-sided-mirrored mode every feature-colour module yields
exactly two prisms — one from the front face and one from the back face,
each of depth `(thickness − web)/2`, separated by the solid central web of
thickness `web` so the stacks never meet — and the front stack is mirrored
across the YZ plane before the union with the back stack.  Stated for the
SVG-driven synthesizer `create_qr_features_from_svg` (feature modules are
the rects of class `qr-module`), and for the parametric fallback of
`create_truly_reversible_tag` (feature modules are the light cells;
`half_depth = max(0.1, (t − web)/2)` collapses to `(t − web)/2` whenever
`web ≤ t − 0.2`; default stacking mirrors the front stack across YZ). -/
theorem dual_stack_mirrored_spec :
    (∀ (W H t web : ℚ) (elems : List SvgRect), 0 < web → web < t →
      ((createQrFeaturesFromSvg W H t web elems).1.length
          = (elems.filter (fun r => r.cls = "qr-module")).length ∧
       (createQrFeaturesFromSvg W H t web elems).2.length
          = (elems.filter (fun r => r.cls = "qr-module")).length) ∧
      (createQrFeaturesFromSvg W H t web elems).1
          = (elems.filter (fun r => r.cls = "qr-module")).map
              (fun r => mirrorYZ (svgFrontPrism W H ((t - web) / 2) r)) ∧
      (∀ pr ∈ (createQrFeaturesFromSvg W H t web elems).1,
          pr.z1 - pr.z0 = (t - web) / 2 ∧ pr.z0 = 0) ∧
      (∀ pr ∈ (createQrFeaturesFromSvg W H t web elems).2,
          pr.z1 - pr.z0 = (t - web) / 2 ∧ pr.z1 = t) ∧
      (∀ pf ∈ (createQrFeaturesFromSvg W H t web elems).1,
       ∀ pb ∈ (createQrFeaturesFromSvg W H t web elems).2,
          pf.z1 < pb.z0 ∧ pb.z0 - pf.z1 = web)) ∧
    (∀ (qx qy qs ms t web : ℚ) (m : List (List Bool)), 0 < web → web ≤ t - 1/5 →
      reversibleHalfDepth t web = (t - web) / 2 ∧
      (reversibleQrStacks qx qy qs ms t web m).1
          = (cells (fun b => !b) m).map (fun rc =>
              mirrorYZ (reversibleFrontPrism qx qy qs ms ((t - web) / 2) rc.1 rc.2)) ∧
      (reversibleQrStacks qx qy qs ms t web m).2
          = (cells (fun b => !b) m).map (fun rc =>
              reversibleBackPrism qx qy qs ms t ((t - web) / 2) rc.1 rc.2) ∧
      (∀ pf ∈ (reversibleQrStacks qx qy qs ms t web m).1,
       ∀ pb ∈ (reversibleQrStacks qx qy qs ms t web m).2,
          pf.z1 < pb.z0 ∧ pb.z0 - pf.z1 = web)) := by
  constructor
  · intro W H t web elems hweb hwt
    have hfr : (createQrFeaturesFromSvg W H t web elems).1
        = ((elems.filter (fun r => r.cls = "qr-module")).map
            (svgFrontPrism W H ((t - web) / 2))).map mirrorYZ := rfl
    have hbk : (createQrFeaturesFromSvg W H t web elems).2
        = (elems.filter (fun r => r.cls = "qr-module")).map
            (svgBackPrism W H t ((t - web) / 2)) := rfl
    refine ⟨⟨?_, ?_⟩, ?_, ?_, ?_, ?_⟩
    · rw [hfr]
      simp
    · rw [hbk]
      simp
    · rw [hfr, List.map_map]
      rfl
    · intro pr hpr
      rw [hfr, List.map_map] at hpr
      obtain ⟨r0, _, rfl⟩ := List.mem_map.mp hpr
      refine ⟨?_, rfl⟩
      show (t - web) / 2 - 0 = (t - web) / 2
      ring
    · intro pr hpr
      rw [hbk] at hpr
      obtain ⟨r0, _, rfl⟩ := List.mem_map.mp hpr
      refine ⟨?_, rfl⟩
      show t - (t - (t - web) / 2) = (t - web) / 2
      ring
    · intro pf hpf pb hpb
      rw [hfr, List.map_map] at hpf
      rw [hbk] at hpb
      obtain ⟨r0, _, rfl⟩ := List.mem_map.mp hpf
      obtain ⟨r1, _, rfl⟩ := List.mem_map.mp hpb
      constructor
      · show (t - web) / 2 < t - (t - web) / 2
        linarith
      · show (t - (t - web) / 2) - (t - web) / 2 = web
        ring
  · intro qx qy qs ms t web m hweb hwt
    have hhd : reversibleHalfDepth t web = (t - web) / 2 := by
      unfold reversibleHalfDepth
      rw [max_eq_right]
      linarith
    have hfr : (reversibleQrStacks qx qy qs ms t web m).1
        = (gridLoop (fun b => !b)
            (reversibleFrontPrism qx qy qs ms (reversibleHalfDepth t web)) m).map
              mirrorYZ := rfl
    have hbk : (reversibleQrStacks qx qy qs ms t web m).2
        = gridLoop (fun b => !b)
            (reversibleBackPrism qx qy qs ms t (reversibleHalfDepth t web)) m := rfl
    rw [hhd] at hfr hbk
    rw [gridLoop_eq_map, List.map_map] at hfr
    rw [gridLoop_eq_map] at hbk
    refine ⟨hhd, ?_, hbk, ?_⟩
    · rw [hfr]
      rfl
    · intro pf hpf pb hpb
      rw [hfr] at hpf
      rw [hbk] at hpb
      obtain ⟨rc0, _, rfl⟩ := List.mem_map.mp hpf
      obtain ⟨rc1, _, rfl⟩ := List.mem_map.mp hpb
      constructor
      · show (t - web) / 2 < (t - (t - web) / 2)
        linarith
      · show (t - (t - web) / 2) - (t - web) / 2 = web
        ring

theorem dual_stack_mirrored_spec_witness :
    (0 : ℚ) < 2/5 ∧ (2/5 : ℚ) < 3 ∧ (2/5 : ℚ) ≤ 3 - 1/5 ∧
    (createQrFeaturesFromSvg 200 74 3 (2/5) [⟨10, 10, 2, 2, "qr-module"⟩]).1
        = [mirrorYZ (svgFrontPrism 200 74 ((3 - 2/5) / 2) ⟨10, 10, 2, 2, "qr-module"⟩)] ∧
    reversibleHalfDepth 3 (2/5) = (3 - 2/5) / 2 := by
  refine ⟨by norm_num, by norm_num, by norm_num, ?_, ?_⟩
  · have h := ((dual_stack_mirrored_spec).1 200 74 3 (2/5)
      [⟨10, 10, 2, 2, "qr-module"⟩] (by norm_num) (by norm_num)).2.1
    simpa using h
  · exact ((dual_stack_mirrored_spec).2 0 0 0 0 3 (2/5) [] (by norm_num) (by norm_num)).1

/-- C2: export determinism.  The tessellation settings are fixed, so
two invocations of `build_and_export` on the same valid Parameter Set
yield, per output solid, the same multiset of triangles, differing at most
in the kernel's internal traversal order; this embedding makes that order
an explicit permutation.  With `deterministic=True` the canonical face
sort maps both runs to the same byte stream, so every content hash the
manifest records for a file name agrees between the runs (for any hash
function), provided no two distinct faces of the tessellation share a
quantized sort key. -/
theorem build_determinism (p : Params) (hash : List ℚ → ℕ) (run1 run2 : List Tri)
    (_hvalid : validateInputs p = .ok ())
    (hsame : run1.Perm run2)
    (hkeys : (run1.map triKey).Nodup) :
    writeDeterministic run1 = writeDeterministic run2 ∧
    hash (writeDeterministic run1) = hash (writeDeterministic run2) := by
  have h := writeDeterministic_perm hsame hkeys
  exact ⟨h, congrArg hash h⟩

theorem build_determinism_witness :
    validateInputs defaultParams = .ok () ∧
    [faceP, faceR].Perm [faceR, faceP] ∧
    ([faceP, faceR].map triKey).Nodup ∧
    writeDeterministic [faceP, faceR] = writeDeterministic [faceR, faceP] := by
  have hv : validateInputs defaultParams = .ok () := by
    unfold validateInputs defaultParams
    norm_num
  have k1 : vKey ⟨0, 0, 0⟩ = [0, 0, 0] := by norm_num [vKey, pyRound]
  have k2 : vKey ⟨1, 0, 0⟩ = [1000000, 0, 0] := by norm_num [vKey, pyRound]
  have k3 : vKey ⟨0, 1, 0⟩ = [0, 1000000, 0] := by norm_num [vKey, pyRound]
  have k5 : vKey ⟨5, 0, 0⟩ = [5000000, 0, 0] := by norm_num [vKey, pyRound]
  have k6 : vKey ⟨6, 0, 0⟩ = [6000000, 0, 0] := by norm_num [vKey, pyRound]
  have k7 : vKey ⟨5, 1, 0⟩ = [5000000, 1000000, 0] := by norm_num [vKey, pyRound]
  have kp : triKey faceP = [0, 0, 0, 0, 1000000, 0, 1000000, 0, 0] := by
    simp only [triKey, faceP, k1, k2, k3]
    decide
  have kr : triKey faceR = [5000000, 0, 0, 5000000, 1000000, 0, 6000000, 0, 0] := by
    simp only [triKey, faceR, k5, k6, k7]
    decide
  have hperm : [faceP, faceR].Perm [faceR, faceP] := List.Perm.swap _ _ _
  have hnd : ([faceP, faceR].map triKey).Nodup := by
    show ([triKey faceP, triKey faceR] : List (List ℤ)).Nodup
    rw [kp, kr]
    decide
  exact ⟨hv, hperm, hnd,
    (build_determinism defaultParams (fun l => l.length) _ _ hv hperm hnd).1⟩

/-- C8 (amended): the deterministic serializer is invariant under any
permutation of the face list *provided no two faces share a sort key*: the
key is the face's vertices quantized to 1e-6 mm with vertices sorted
within the face, faces are stably sorted by key, and the sorted order of a
key-distinct multiset is unique.  Without that proviso the stable sort
keeps key-tied faces in input order, and the invariance fails — see the
counterexample. -/
theorem canonical_serializer_perm_invariant (faces faces2 : List Tri)
    (hperm : faces.Perm faces2) (hkeys : (faces.map triKey).Nodup) :
    writeDeterministic faces = writeDeterministic faces2 :=
  writeDeterministic_perm hperm hkeys

theorem canonical_serializer_witness :
    [faceQ].Perm [faceQ] ∧ ([faceQ].map triKey).Nodup ∧
    writeDeterministic [faceQ] = writeDeterministic [faceQ] :=
  ⟨.refl _, by simp, canonical_serializer_perm_invariant [faceQ] [faceQ] (.refl _) (by simp)⟩

/-- C8 counterexample: `faceP` and `faceQ` are the same triangle with
the vertex cycle rotated — distinct face records with equal sort keys
(the key sorts vertices within the face).  The two input orders of the
two-face mesh are permutations of each other, yet serialize to different
bytes: the stable sort keeps key-tied faces in input order and each record
keeps its original vertex order.  The claimed invariance under *every*
permutation of *every* mesh is therefore false. -/
theorem canonical_serializer_counterexample :
    triKey faceP = triKey faceQ ∧
    faceP ≠ faceQ ∧
    [faceP, faceQ].Perm [faceQ, faceP] ∧
    writeDeterministic [faceP, faceQ] ≠ writeDeterministic [faceQ, faceP] := by
  have k1 : vKey ⟨0, 0, 0⟩ = [0, 0, 0] := by norm_num [vKey, pyRound]
  have k2 : vKey ⟨1, 0, 0⟩ = [1000000, 0, 0] := by norm_num [vKey, pyRound]
  have k3 : vKey ⟨0, 1, 0⟩ = [0, 1000000, 0] := by norm_num [vKey, pyRound]
  have hk : triKey faceP = triKey faceQ := by
    simp only [triKey, faceP, faceQ, k1, k2, k3]
    decide
  have hfo : faceOrder faceP faceQ := by
    unfold faceOrder
    rw [hk]
    exact lexLe_refl _
  have hfo2 : faceOrder faceQ faceP := by
    unfold faceOrder
    rw [hk]
    exact lexLe_refl _
  have hs1 : sortFaces [faceP, faceQ] = [faceP, faceQ] := by
    show List.orderedInsert faceOrder faceP
        (List.orderedInsert faceOrder faceQ []) = [faceP, faceQ]
    rw [List.orderedInsert_nil, List.orderedInsert_of_le faceOrder [] hfo]
  have hs2 : sortFaces [faceQ, faceP] = [faceQ, faceP] := by
    show List.orderedInsert faceOrder faceQ
        (List.orderedInsert faceOrder faceP []) = [faceQ, faceP]
    rw [List.orderedInsert_nil, List.orderedInsert_of_le faceOrder [] hfo2]
  refine ⟨hk, by decide, List.Perm.swap _ _ _, ?_⟩
  unfold writeDeterministic
  rw [hs1, hs2]
  simp only [List.flatMap_cons, List.flatMap_nil, triBytes, faceP, faceQ, List.append_nil]
  decide

end LuggageTag
